import Mathlib

/-!
Shallow embedding of the client-side Mermaid diagram subsystem of the
ai-agent-study documentation site.  The whole subsystem is the inline
script injected through the site configuration (astro.config.mjs, the
`head` script entry): it extracts `pre[data-language="mermaid"]` blocks,
converts them into `.mermaid` mount divs, renders them through the
external `mermaid` engine, wraps each rendered svg in a pan/zoom
viewport container, and re-renders everything on `data-theme` changes
observed by a MutationObserver.

External libraries (the `mermaid` engine and `svgPanZoom`) are not part
of the repository; where their behaviour decides a claim they are
modelled from the specification (see the doc comments marked
`Modelled from the spec:`).
-/

namespace MermaidClient

/-- Palette the script passes to the engine for light mode
(`theme === 'light' ? 'neutral' : 'dark'`). -/
def lightPalette : String := "neutral"

/-- Palette the script passes to the engine for every non-light theme value. -/
def darkPalette : String := "dark"

/-- The one attribute value mapped to the light palette. -/
def lightAttrVal : String := "light"

/-- Logging level the script configures on the engine (`logLevel: 'error'`). -/
def errorLogLevel : String := "error"

/-- The empty string, used to model empty cached diagram sources. -/
def emptyStr : String := ""

/-- `getCurrentTheme` (source lines 46-50): reads `data-theme` from the
document root (`none` models an absent attribute, as
`getAttribute` returns null there) and maps the value "light" to the
light palette and every other value, absent included, to the dark one. -/
def getCurrentTheme (attr : Option String) : String :=
  if attr = some lightAttrVal then lightPalette else darkPalette

/-- Content of a `.mermaid` mount div over its lifetime:
raw diagram text, a bare rendered svg child, a svg wrapped in `nest`
nested `.mermaid-container` wrappers (the viewport container built by
`addZoomControls`, holding the svg and the hint div; `panZoom` records
whether the `svgPanZoom` initialisation succeeded), or the inline error
output the engine leaves in a node whose source failed to parse. -/
inductive MountContent where
  | rawText (s : String)
  | svgGraphic (theme : String) (panZoom : Bool)
  | wrapped (nest : Nat) (theme : String) (panZoom : Bool)
  | errorOutput
  deriving DecidableEq, Repr

/-- A `.mermaid` mount div: its parsed `data-block-index` attribute
(`none` models a missing attribute / NaN from `parseInt`), its current
content, and whether the engine has marked it `data-processed`. -/
structure Mount where
  blockIndex : Option Nat
  content : MountContent
  processed : Bool
  deriving DecidableEq, Repr

/-- A `pre[data-language="mermaid"]` block before conversion: `codeText`
is the text of its nested `code` child when one exists
(`code.innerText || code.textContent`), `none` when the block has no
`code` child. -/
structure Block where
  codeText : Option String
  deriving DecidableEq, Repr

/-- A top-level page node as far as the subsystem can observe it:
a diagram-tagged `pre` block, a `.mermaid` mount div (the block or its
enclosing `figure` was structurally replaced by the conversion loop), or
any other page content, untouched by the subsystem. -/
inductive PageItem where
  | pre (b : Block)
  | mount (m : Mount)
  | other
  deriving DecidableEq, Repr

/-- The `.mermaid` mount divs of a page, in document order. -/
def mountsOf (items : List PageItem) : List Mount :=
  items.filterMap fun it =>
    match it with
    | .mount m => some m
    | _ => none

/-- Apply a per-mount transformation to every mount div of the page,
leaving every other node untouched (the shape of every
`querySelectorAll('.mermaid').forEach` loop in the script). -/
def mapMounts (g : Mount → Mount) (items : List PageItem) : List PageItem :=
  items.map fun it =>
    match it with
    | .mount m => .mount (g m)
    | _ => it

/-- The conversion loop of the load handler (source lines 172-196):
`mermaidBlocks.forEach((pre, index) => ...)` walks every diagram-tagged
`pre` in document order; `index` counts ALL such blocks.  A block with a
`code` child pushes its text onto `window.mermaidSources`, and the block
(or its enclosing `figure`) is replaced in place by a `.mermaid` div
whose text is the source and whose `data-block-index` is `index`.  A
block without a `code` child is skipped entirely: nothing is pushed and
the DOM node stays as it was, but `index` has still counted it.
Returns (converted page, sources recorded by this segment). -/
def convertItems : List PageItem → Nat → (List PageItem × List String)
  | [], _ => ([], [])
  | .pre b :: rest, i =>
      match b.codeText with
      | some s =>
          let r := convertItems rest (i + 1)
          (.mount ⟨some i, .rawText s, false⟩ :: r.1, s :: r.2)
      | none =>
          let r := convertItems rest (i + 1)
          (.pre b :: r.1, r.2)
  | .mount m :: rest, i =>
      let r := convertItems rest i
      (.mount m :: r.1, r.2)
  | .other :: rest, i =>
      let r := convertItems rest i
      (.other :: r.1, r.2)

/-- Full conversion of a freshly loaded page: `window.mermaidSources`
starts empty and the forEach index starts at 0. -/
def convert (page : List PageItem) : List PageItem × List String :=
  convertItems page 0

/-- Children of a viewport container as constructed by `addZoomControls`
(source lines 52-107): `svg.parentNode.insertBefore(container, svg)`
puts the container inside the `.mermaid` div, then
`container.appendChild(svg)` and `container.appendChild(hint)` give it
exactly the rendered svg and the hint div as children. -/
inductive ContainerChild where
  | svgChild
  | hintChild
  deriving DecidableEq, Repr

/-- CSS class list of a viewport container child: the svg element
carries no class the script queries for; the hint div has class
`mermaid-hint`.  Neither carries class `mermaid` (nor do any of their
own descendants: the svg holds only rendered diagram shapes and the
pan/zoom control icons). -/
def containerChildClass : ContainerChild → List String
  | .svgChild => []
  | .hintChild => ["mermaid-hint"]

/-- The children every viewport container is created with. -/
def viewportChildren : List ContainerChild := [.svgChild, .hintChild]

/-- `container.querySelector('.mermaid')` in the first teardown loop:
a descendant search among the container children for class `mermaid`. -/
def containerFindMermaid (children : List ContainerChild) : Option ContainerChild :=
  children.find? fun c => (containerChildClass c).contains "mermaid"

/-- First teardown loop of `renderMermaidDiagrams` (source lines
113-124): for every `.mermaid-container` element, look up a `.mermaid`
DESCENDANT (`container.querySelector('.mermaid')`); only when one is
found, reset it and `container.replaceWith(mermaidDiv)`.  Because
`addZoomControls` inserts the container inside the `.mermaid` div (the
mount is the PARENT of the container, never a descendant), the lookup
always fails, the `if (mermaidDiv)` guard is never taken, and the loop
leaves the page exactly as it was. -/
def teardownContainers (items : List PageItem) : List PageItem :=
  items.map fun it =>
    match it with
    | .mount m =>
        match m.content with
        | .wrapped _ _ _ =>
            match containerFindMermaid viewportChildren with
            | some _ => it
            | none => it
        | _ => it
    | _ => it

/-- Second teardown loop, per mount (source lines 127-135): parse
`data-block-index`; when it is a number AND `window.mermaidSources[index]`
is truthy (in range and not the empty string), set the mount text back
to the cached source (removing every child, svg and container included)
and remove `data-processed`; otherwise leave the mount untouched. -/
def resetMount (sources : List String) (m : Mount) : Mount :=
  match m.blockIndex with
  | none => m
  | some i =>
      match sources.get? i with
      | some s => if s = emptyStr then m else ⟨m.blockIndex, .rawText s, false⟩
      | none => m

/-- Second teardown loop over the whole page
(`document.querySelectorAll('.mermaid').forEach`). -/
def resetMounts (sources : List String) (items : List PageItem) : List PageItem :=
  mapMounts (resetMount sources) items

/-- The engine configuration `renderMermaidDiagrams` passes to
`mermaid.initialize` (source lines 138-142). -/
structure EngineConfig where
  startOnLoad : Bool
  theme : String
  logLevel : String
  deriving DecidableEq, Repr

/-- An observable call into the external diagramming engine, in the
order the orchestrator issues them. -/
inductive EngineCall where
  | cfgCall (cfg : EngineConfig)
  | runCall (nodeCount : Nat)
  deriving DecidableEq, Repr

/-- Modelled from the spec: the per-node behaviour of the external
diagramming engine during the batch call (`mermaid.run({nodes})`), which
is not part of the repository.  Per the spec, the engine attempts every
node: a node whose raw source parses is replaced by a rendered svg in
the configured palette, a node whose source is malformed is left showing
the engine's own inline error output (not a rendered graphic), and —
per the script's own comment "Remove the data-processed attribute so
Mermaid will re-render" — a node still carrying `data-processed` is
skipped.  `valid` is the (opaque) engine syntax check. -/
def engineRenderNode (theme : String) (valid : String → Bool) (m : Mount) : Mount :=
  if m.processed then m
  else
    match m.content with
    | .rawText s =>
        if valid s then ⟨m.blockIndex, .svgGraphic theme false, true⟩
        else ⟨m.blockIndex, .errorOutput, true⟩
    | _ => m

/-- Modelled from the spec: the batch render call.  Per the engine
contract in the spec it resolves once all nodes have been attempted
(per-diagram failures do not reject it); `batchOk = false` models the
spec's "unexpected engine failure" in which the call itself rejects
before touching the nodes. -/
def engineRun (theme : String) (valid : String → Bool) (batchOk : Bool)
    (items : List PageItem) : Except Unit (List PageItem) :=
  if batchOk then .ok (mapMounts (engineRenderNode theme valid) items)
  else .error ()

/-- Does a mount content contain an svg element, i.e. does the mount
match the `document.querySelectorAll('.mermaid svg')` selector of the
enhancement loop?  Bare rendered graphics and wrapped graphics do; raw
text and the engine inline error output (an error placeholder, not a
rendered graphic, per the spec) do not. -/
def hasSvg : MountContent → Bool
  | .svgGraphic _ _ => true
  | .wrapped _ _ _ => true
  | _ => false

/-- `addZoomControls(svg, index)` on the svg of one mount (source lines
52-107): unconditionally build a sized container, insert it before the
svg inside the mount, move the svg (and the hint) into it, then attempt
`svgPanZoom(svg, ...)` inside a try/catch — `panOk index` tells whether
that initialisation succeeded (`false` models the caught-and-logged
throw, leaving the graphic wrapped but static).  On an already wrapped
svg this nests one more container around it. -/
def enhanceMount (panOk : Nat → Bool) (idx : Nat) (m : Mount) : Mount :=
  match m.content with
  | .svgGraphic theme _ => ⟨m.blockIndex, .wrapped 1 theme (panOk idx), m.processed⟩
  | .wrapped n theme _ => ⟨m.blockIndex, .wrapped (n + 1) theme (panOk idx), m.processed⟩
  | _ => m

/-- The enhancement loop
(`document.querySelectorAll('.mermaid svg').forEach((svg, index) => addZoomControls(svg, index))`,
source lines 158-160): walks the svg elements in document order; the
forEach index counts svg elements, not mounts. -/
def enhanceAll (panOk : Nat → Bool) (idx : Nat) : List PageItem → List PageItem
  | [] => []
  | .mount m :: rest =>
      if hasSvg m.content then
        .mount (enhanceMount panOk idx m) :: enhanceAll panOk (idx + 1) rest
      else
        .mount m :: enhanceAll panOk idx rest
  | it :: rest => it :: enhanceAll panOk idx rest

/-- Number of `.mermaid` mount divs on the page
(`document.querySelectorAll('.mermaid').length`). -/
def countMounts (items : List PageItem) : Nat :=
  items.countP fun it =>
    match it with
    | .mount _ => true
    | _ => false

/-- Number of svg elements inside mounts, i.e. the number of
`addZoomControls` invocations the enhancement loop performs. -/
def countSvg (items : List PageItem) : Nat :=
  (mountsOf items).countP fun m => hasSvg m.content

/-- Parameters a render pass depends on that are outside the script:
the engine syntax check, whether the batch call itself resolves, and
whether `svgPanZoom` initialisation succeeds for the idx-th graphic. -/
structure PassParams where
  valid : String → Bool
  batchOk : Bool
  panOk : Nat → Bool

/-- Everything observable about one completed render pass. -/
structure PassResult where
  items : List PageItem
  config : EngineConfig
  enhancements : Nat
  batchResolved : Bool
  calls : List EngineCall

/-- One completed invocation of `renderMermaidDiagrams` (source lines
109-164) under sequential (non-interleaved) execution: run the two
teardown loops, configure the engine (startOnLoad false, palette from
the current `data-theme`, logLevel "error"), await the fixed 50ms
delay, then inside try/catch snapshot the `.mermaid` nodes, await the
batch render call, and on resolution run the enhancement loop; a
rejected batch call is caught and logged, leaving the page as the
teardown left it and producing zero enhancements. -/
def renderPass (attr : Option String) (p : PassParams)
    (sources : List String) (items : List PageItem) : PassResult :=
  let afterReset := resetMounts sources (teardownContainers items)
  let cfg : EngineConfig := ⟨false, getCurrentTheme attr, errorLogLevel⟩
  let calls : List EngineCall := [.cfgCall cfg, .runCall (countMounts afterReset)]
  match engineRun cfg.theme p.valid p.batchOk afterReset with
  | .ok rendered =>
      ⟨enhanceAll p.panOk 0 rendered, cfg, countSvg rendered, true, calls⟩
  | .error _ =>
      ⟨afterReset, cfg, 0, false, calls⟩

/-- Result of the whole load handler (source lines 166-216). -/
structure LoadResult where
  sources : List String
  pass : PassResult
  observerInstalled : Bool

/-- The load handler: convert the page (populating
`window.mermaidSources`), perform the initial render pass, and install
the MutationObserver on the document root regardless of how many
diagrams were found. -/
def loadHandler (attr : Option String) (p : PassParams)
    (page : List PageItem) : LoadResult :=
  let c := convert page
  ⟨c.2, renderPass attr p c.2 c.1, true⟩

/-- The cached source a mount points at:
`window.mermaidSources[parseInt(mount.getAttribute('data-block-index'))]`. -/
def srcOf (sources : List String) (m : Mount) : Option String :=
  m.blockIndex.bind sources.get?

/-!
Event-loop model of orchestrator invocations.  `renderMermaidDiagrams`
is an async function with exactly two suspension points: the fixed 50ms
delay (`await new Promise(resolve => setTimeout(resolve, 50))`) and the
batch render call (`await mermaid.run(...)`); everything else in it is
synchronous.  Neither the load handler (`renderMermaidDiagrams()` at
line 199) nor the MutationObserver handler (line 206) awaits the
returned promise, and neither consults any guard before calling. -/

/-- Where a suspended orchestrator invocation is parked: at the fixed
delay, or awaiting the batch render call. -/
inductive Phase where
  | atDelay
  | atRun
  deriving DecidableEq, Repr

/-- Browser events that drive the subsystem: the initial
`renderMermaidDiagrams()` call from the load handler, a `data-theme`
mutation delivered to the MutationObserver, and the event loop resuming
the oldest suspended invocation (its pending timer or engine promise
settles). -/
inductive Ev where
  | load
  | themeChange
  | resumeNext
  deriving DecidableEq, Repr

/-- Starting an orchestrator invocation (the observer handler and the
load handler both just call `renderMermaidDiagrams()`): its synchronous
prefix (both teardown loops, `mermaid.initialize`) runs to the first
await and the invocation joins the in-flight list suspended at the
delay.  No guard is consulted: this happens whatever is already in
flight. -/
def startInvocation (s : List Phase) : List Phase :=
  Phase.atDelay :: s

/-- Resuming a suspended invocation: the delay resolves and the
invocation moves on to await the batch call, or the batch call settles
and the invocation finishes (the enhancement loop and the catch branch
are synchronous). -/
def advancePhase : Phase → Option Phase
  | .atDelay => some .atRun
  | .atRun => none

/-- One scheduler step: the in-flight invocations (newest first) react
to one event.  `resumeNext` settles the oldest suspended invocation. -/
def stepEv (s : List Phase) : Ev → List Phase
  | .load => startInvocation s
  | .themeChange => startInvocation s
  | .resumeNext =>
      match s.getLast? with
      | none => s
      | some ph => s.dropLast ++ (advancePhase ph).toList

/-- In-flight invocations after a whole event trace, starting from an
idle page. -/
def runTrace (trace : List Ev) : List Phase :=
  trace.foldl stepEv []

/-- The serialization property claimed by the spec, as a check over an
event trace: every event that starts a new orchestrator invocation
(load or theme change) must arrive when no previous invocation is still
suspended at its delay or its batch call. -/
def serializedFrom (s : List Phase) : List Ev → Bool
  | [] => true
  | e :: rest =>
      (match e with
       | .load => s.isEmpty
       | .themeChange => s.isEmpty
       | .resumeNext => true)
      && serializedFrom (stepEv s e) rest

/-- Serialization of a trace from the idle page. -/
def serializedTrace (trace : List Ev) : Bool :=
  serializedFrom [] trace

/-- A mount whose `data-block-index` resolves, through the process-wide
source list, to a DiagramSource with non-empty text that the engine
accepts.  Initial conversion of a well-formed page produces exactly such
mounts. -/
def goodMount (sources : List String) (valid : String → Bool) (m : Mount) : Prop :=
  ∃ i s, m.blockIndex = some i ∧ sources.get? i = some s ∧ s ≠ emptyStr ∧ valid s = true

/-- Every mount div of the page is good. -/
def allGood (sources : List String) (valid : String → Bool)
    (items : List PageItem) : Prop :=
  ∀ m, PageItem.mount m ∈ items → goodMount sources valid m

/-- A mount whose `data-block-index` resolves to a non-empty cached
source, with no assumption on whether the engine accepts that source. -/
def alignedMount (sources : List String) (m : Mount) : Prop :=
  ∃ i s, m.blockIndex = some i ∧ sources.get? i = some s ∧ s ≠ emptyStr

/-- Every mount div of the page is aligned. -/
def allAligned (sources : List String) (items : List PageItem) : Prop :=
  ∀ m, PageItem.mount m ∈ items → alignedMount sources m

/-- Does the cached source a mount points at parse, per the engine
syntax check? False also when the index resolves to nothing. -/
def mountSrcValid (sources : List String) (valid : String → Bool) (m : Mount) : Bool :=
  match srcOf sources m with
  | some s => valid s
  | none => false

/-- The invariant claimed by the spec: the `data-block-index` attribute
of a mount resolves to a valid entry of the process-wide source list. -/
def indexResolves (sources : List String) (m : Mount) : Prop :=
  ∃ i, m.blockIndex = some i ∧ i < sources.length

/-- Is a page node a diagram-tagged `pre` block
(`pre[data-language="mermaid"]`)? -/
def isMermaidPre : PageItem → Bool
  | .pre _ => true
  | _ => false

/-- Number of diagram-tagged `pre` blocks of a page segment: what the
forEach index of the conversion loop counts. -/
def countPres (items : List PageItem) : Nat :=
  items.countP isMermaidPre

/-- A concrete well-formed diagram source. -/
def srcGraph : String := "graph TD"

/-- Another concrete well-formed diagram source. -/
def srcA : String := "graph LR"

/-- A concrete malformed diagram source. -/
def srcBad : String := "not a diagram"

/-- Pass parameters for runs where the engine accepts every source, the
batch call resolves, and every pan/zoom initialisation succeeds. -/
def trivParams : PassParams :=
  ⟨fun _ => true, true, fun _ => true⟩

/-- Pass parameters whose batch render call rejects. -/
def failParams : PassParams :=
  ⟨fun _ => true, false, fun _ => true⟩

/-- Pass parameters where exactly the source `srcBad` is malformed. -/
def oneBadParams : PassParams :=
  ⟨fun s => !(s == srcBad), true, fun _ => true⟩

/-- Pass parameters where pan/zoom initialisation throws exactly for the
0-th rendered graphic of the pass. -/
def panFailParams : PassParams :=
  ⟨fun _ => true, true, fun k => !(k == 0)⟩

/-- A page whose first diagram-tagged block has no `code` child and
whose second carries a valid source. -/
def pageCodeless : List PageItem :=
  [PageItem.pre ⟨none⟩, PageItem.pre ⟨some srcGraph⟩]

/-- A page with no diagram-tagged block at all. -/
def pageNoDiagrams : List PageItem :=
  [PageItem.other]

/-- A freshly converted one-diagram page. -/
def oneMountItems : List PageItem :=
  [PageItem.mount ⟨some 0, MountContent.rawText srcA, false⟩]

/-- A freshly converted page with one malformed source (position 1)
among two valid ones. -/
def oneBadItems : List PageItem :=
  [PageItem.mount ⟨some 0, MountContent.rawText srcA, false⟩,
   PageItem.mount ⟨some 1, MountContent.rawText srcBad, false⟩,
   PageItem.mount ⟨some 2, MountContent.rawText srcGraph, false⟩]

/-- The source list cached for `oneBadItems`. -/
def oneBadSources : List String := [srcA, srcBad, srcGraph]

/-- A freshly converted two-diagram page. -/
def twoMountItems : List PageItem :=
  [PageItem.mount ⟨some 0, MountContent.rawText srcA, false⟩,
   PageItem.mount ⟨some 1, MountContent.rawText srcGraph, false⟩]

/-- The source list cached for `twoMountItems`. -/
def twoMountSources : List String := [srcA, srcGraph]

/-- The first teardown loop changes nothing: the `.mermaid` descendant
lookup inside a viewport container never succeeds. -/
theorem teardownContainers_eq (items : List PageItem) :
    teardownContainers items = items := by
  unfold teardownContainers
  have h : ∀ it : PageItem,
      (match it with
        | .mount m =>
            match m.content with
            | .wrapped _ _ _ =>
                match containerFindMermaid viewportChildren with
                | some _ => it
                | none => it
            | _ => it
        | _ => it) = it := by
    intro it
    cases it with
    | mount m =>
        rcases m with ⟨bi, c, pr⟩
        cases c <;> rfl
    | pre b => rfl
    | other => rfl
  simp [h]

theorem mountsOf_mapMounts (g : Mount → Mount) (items : List PageItem) :
    mountsOf (mapMounts g items) = (mountsOf items).map g := by
  induction items with
  | nil => rfl
  | cons it rest ih =>
      cases it <;> simp [mountsOf, mapMounts, List.filterMap_cons] at * <;>
        simpa [mountsOf, mapMounts] using ih

theorem mem_mountsOf (m : Mount) (items : List PageItem) :
    m ∈ mountsOf items ↔ PageItem.mount m ∈ items := by
  unfold mountsOf
  rw [List.mem_filterMap]
  constructor
  · rintro ⟨it, hit, hm⟩
    cases it <;> simp at hm
    exact hm ▸ hit
  · intro h
    exact ⟨PageItem.mount m, h, rfl⟩

/-- On a page where every mount holds a bare rendered graphic in a fixed
palette, the enhancement loop wraps the k-th mount in exactly one
viewport container whose pan/zoom outcome is that of the (idx+k)-th
`addZoomControls` invocation. -/
theorem enhanceAll_allSvg_get? (panOk : Nat → Bool) (θ : String)
    (l : List PageItem) :
    ∀ idx : Nat,
    (∀ m, PageItem.mount m ∈ l →
        m.content = MountContent.svgGraphic θ false ∧ m.processed = true) →
    ∀ k, (mountsOf (enhanceAll panOk idx l)).get? k =
      ((mountsOf l).get? k).map
        (fun m => ⟨m.blockIndex, MountContent.wrapped 1 θ (panOk (idx + k)), true⟩) := by
  induction l with
  | nil => intro idx h k; simp [enhanceAll, mountsOf]
  | cons it rest ih =>
      intro idx h k
      cases it with
      | mount m =>
          have hm := h m (List.mem_cons_self _ _)
          have hsvg : hasSvg m.content = true := by rw [hm.1]; rfl
          have hrest : ∀ m', PageItem.mount m' ∈ rest →
              m'.content = MountContent.svgGraphic θ false ∧ m'.processed = true :=
            fun m' hm' => h m' (List.mem_cons_of_mem _ hm')
          cases k with
          | zero =>
              simp [enhanceAll, hasSvg, hsvg, mountsOf, enhanceMount, hm.1, hm.2]
          | succ k =>
              have hrec := ih (idx + 1) hrest k
              have harith : idx + 1 + k = idx + (k + 1) := by omega
              simp only [enhanceAll, hsvg, if_true, mountsOf, List.filterMap_cons] at hrec ⊢
              simpa [harith] using hrec
      | pre b =>
          have hrest : ∀ m', PageItem.mount m' ∈ rest →
              m'.content = MountContent.svgGraphic θ false ∧ m'.processed = true :=
            fun m' hm' => h m' (List.mem_cons_of_mem _ hm')
          have hrec := ih idx hrest k
          simpa [enhanceAll, mountsOf, List.filterMap_cons] using hrec
      | other =>
          have hrest : ∀ m', PageItem.mount m' ∈ rest →
              m'.content = MountContent.svgGraphic θ false ∧ m'.processed = true :=
            fun m' hm' => h m' (List.mem_cons_of_mem _ hm')
          have hrec := ih idx hrest k
          simpa [enhanceAll, mountsOf, List.filterMap_cons] using hrec

/-- Unfolding a completed render pass on a resolving batch call. -/
theorem renderPass_items_ok (attr : Option String) (p : PassParams)
    (sources : List String) (items : List PageItem) (hb : p.batchOk = true) :
    (renderPass attr p sources items).items =
      enhanceAll p.panOk 0
        (mapMounts (engineRenderNode (getCurrentTheme attr) p.valid)
          (mapMounts (resetMount sources) items)) := by
  simp [renderPass, teardownContainers_eq, resetMounts, engineRun, hb]

/-- A good mount, reset and then rendered, is a freshly rendered
graphic in the current palette. -/
theorem engine_reset_good (θ : String) (valid : String → Bool)
    (sources : List String) (m : Mount) (h : goodMount sources valid m) :
    engineRenderNode θ valid (resetMount sources m) =
      ⟨m.blockIndex, MountContent.svgGraphic θ false, true⟩ := by
  obtain ⟨i, s, hbi, hsrc, hne, hval⟩ := h
  rw [List.get?_eq_getElem?] at hsrc
  simp [resetMount, engineRenderNode, hbi, hsrc, hne, hval]

/-- Pointwise description of a completed render pass over a page whose
mounts are all good: the k-th mount comes back wrapped in exactly one
viewport container in the current palette, marked processed, with its
block index untouched, and its pan/zoom state set by the k-th
`addZoomControls` invocation. -/
theorem renderPass_allGood_get? (attr : Option String) (p : PassParams)
    (sources : List String) (items : List PageItem)
    (hb : p.batchOk = true) (hg : allGood sources p.valid items) :
    ∀ k, (mountsOf (renderPass attr p sources items).items).get? k =
      ((mountsOf items).get? k).map
        (fun m => ⟨m.blockIndex,
          MountContent.wrapped 1 (getCurrentTheme attr) (p.panOk k), true⟩) := by
  intro k
  have hpre : ∀ m, PageItem.mount m ∈
      mapMounts (engineRenderNode (getCurrentTheme attr) p.valid)
        (mapMounts (resetMount sources) items) →
      m.content = MountContent.svgGraphic (getCurrentTheme attr) false ∧
        m.processed = true := by
    intro m hm
    rw [← mem_mountsOf, mountsOf_mapMounts, mountsOf_mapMounts] at hm
    simp only [List.map_map, List.mem_map, Function.comp] at hm
    obtain ⟨m0, hm0, hEq⟩ := hm
    have hg0 := hg m0 ((mem_mountsOf m0 items).1 hm0)
    rw [engine_reset_good _ _ _ _ hg0] at hEq
    rw [← hEq]
    exact ⟨rfl, rfl⟩
  rw [renderPass_items_ok attr p sources items hb,
    enhanceAll_allSvg_get? p.panOk (getCurrentTheme attr) _ 0 hpre k,
    mountsOf_mapMounts, mountsOf_mapMounts, List.get?_map, List.get?_map]
  cases hk : (mountsOf items).get? k with
  | none => rfl
  | some m =>
      have hmem : m ∈ mountsOf items := List.get?_mem hk
      have hg0 := hg m ((mem_mountsOf m items).1 hmem)
      simp [engine_reset_good _ _ _ _ hg0]

/-- A completed render pass keeps every mount good: block indices are
untouched and the source list is read-only. -/
theorem renderPass_preserves_allGood (attr : Option String) (p : PassParams)
    (sources : List String) (items : List PageItem)
    (hb : p.batchOk = true) (hg : allGood sources p.valid items) :
    allGood sources p.valid (renderPass attr p sources items).items := by
  intro m hm
  rw [← mem_mountsOf] at hm
  obtain ⟨k, hk⟩ := List.mem_iff_get?.1 hm
  rw [renderPass_allGood_get? attr p sources items hb hg k] at hk
  cases hk0 : (mountsOf items).get? k with
  | none =>
      rw [hk0] at hk
      simp at hk
  | some m0 =>
      rw [hk0] at hk
      simp only [Option.map_some'] at hk
      have hmem0 : m0 ∈ mountsOf items := List.get?_mem hk0
      have hg0 := hg m0 ((mem_mountsOf m0 items).1 hmem0)
      obtain ⟨i, s, hbi, hsrc, hne, hval⟩ := hg0
      injection hk with hk
      refine ⟨i, s, ?_, hsrc, hne, hval⟩
      rw [← hk]
      exact hbi

/-- The second teardown loop never touches `data-block-index`. -/
theorem resetMount_blockIndex (sources : List String) (m : Mount) :
    (resetMount sources m).blockIndex = m.blockIndex := by
  unfold resetMount
  split
  · rfl
  · split
    · split
      · rfl
      · rfl
    · rfl

/-- The engine never touches `data-block-index`. -/
theorem engineRenderNode_blockIndex (θ : String) (valid : String → Bool) (m : Mount) :
    (engineRenderNode θ valid m).blockIndex = m.blockIndex := by
  unfold engineRenderNode
  split
  · rfl
  · split
    · split
      · rfl
      · rfl
    · rfl

/-- `addZoomControls` never touches `data-block-index`. -/
theorem enhanceMount_blockIndex (panOk : Nat → Bool) (idx : Nat) (m : Mount) :
    (enhanceMount panOk idx m).blockIndex = m.blockIndex := by
  unfold enhanceMount
  rcases hc : m.content <;> rfl

/-- The second teardown loop of a pass restores an aligned mount to its
cached source text, unprocessed, whatever its previous content. -/
theorem resetMount_aligned (sources : List String) (m : Mount)
    (h : alignedMount sources m) :
    ∃ i s, m.blockIndex = some i ∧ sources.get? i = some s ∧ s ≠ emptyStr ∧
      resetMount sources m = ⟨some i, MountContent.rawText s, false⟩ := by
  obtain ⟨i, s, hbi, hsrc, hne⟩ := h
  refine ⟨i, s, hbi, hsrc, hne, ?_⟩
  have hsrc' := hsrc
  rw [List.get?_eq_getElem?] at hsrc'
  simp [resetMount, hbi, hsrc', hne]

/-- Every mount of a post-enhancement page is some `enhanceMount` image
of a mount of the pre-enhancement page. -/
theorem enhanceAll_mem (panOk : Nat → Bool) (l : List PageItem) :
    ∀ (idx : Nat) (m' : Mount), PageItem.mount m' ∈ enhanceAll panOk idx l →
      ∃ m k, PageItem.mount m ∈ l ∧ m' = enhanceMount panOk k m := by
  induction l with
  | nil => intro idx m' h; simp [enhanceAll] at h
  | cons it rest ih =>
      intro idx m' h
      cases it with
      | mount m =>
          by_cases hs : hasSvg m.content = true
          · rw [enhanceAll, if_pos hs] at h
            rcases List.mem_cons.1 h with h0 | h0
            · exact ⟨m, idx, List.mem_cons_self _ _, by injection h0⟩
            · obtain ⟨m0, k, hm0, hEq⟩ := ih (idx + 1) m' h0
              exact ⟨m0, k, List.mem_cons_of_mem _ hm0, hEq⟩
          · rw [enhanceAll, if_neg hs] at h
            rcases List.mem_cons.1 h with h0 | h0
            · refine ⟨m, idx, List.mem_cons_self _ _, ?_⟩
              injection h0 with h0
              rcases hc : m.content <;> simp [hc, hasSvg] at hs ⊢ <;>
                simp [h0, enhanceMount, hc]
            · obtain ⟨m0, k, hm0, hEq⟩ := ih idx m' h0
              exact ⟨m0, k, List.mem_cons_of_mem _ hm0, hEq⟩
      | pre b =>
          rw [show enhanceAll panOk idx (PageItem.pre b :: rest) =
              PageItem.pre b :: enhanceAll panOk idx rest from rfl] at h
          rcases List.mem_cons.1 h with h0 | h0
          · exact PageItem.noConfusion h0
          · obtain ⟨m0, k, hm0, hEq⟩ := ih idx m' h0
            exact ⟨m0, k, List.mem_cons_of_mem _ hm0, hEq⟩
      | other =>
          rw [show enhanceAll panOk idx (PageItem.other :: rest) =
              PageItem.other :: enhanceAll panOk idx rest from rfl] at h
          rcases List.mem_cons.1 h with h0 | h0
          · exact PageItem.noConfusion h0
          · obtain ⟨m0, k, hm0, hEq⟩ := ih idx m' h0
            exact ⟨m0, k, List.mem_cons_of_mem _ hm0, hEq⟩

/-- Every pass, resolving or not, configures the engine with
startOnLoad off, the palette derived from the current theme attribute,
and the error-only logging level. -/
theorem renderPass_config (attr : Option String) (p : PassParams)
    (sources : List String) (items : List PageItem) :
    (renderPass attr p sources items).config =
      ⟨false, getCurrentTheme attr, errorLogLevel⟩ := by
  cases hpb : p.batchOk <;> simp [renderPass, engineRun, hpb]

/-- Every pass issues exactly one configuration call followed by
exactly one batch render call over the full current mount set. -/
theorem renderPass_calls (attr : Option String) (p : PassParams)
    (sources : List String) (items : List PageItem) :
    (renderPass attr p sources items).calls =
      [EngineCall.cfgCall ⟨false, getCurrentTheme attr, errorLogLevel⟩,
       EngineCall.runCall
         (countMounts (resetMounts sources (teardownContainers items)))] := by
  cases hpb : p.batchOk <;> simp [renderPass, engineRun, hpb]

/-- When the batch render call rejects, the catch branch leaves the
page exactly as the teardown left it, with zero enhancements. -/
theorem renderPass_batch_rejected (attr : Option String) (p : PassParams)
    (sources : List String) (items : List PageItem) (hb : p.batchOk = false) :
    (renderPass attr p sources items).items = resetMounts sources items ∧
    (renderPass attr p sources items).enhancements = 0 ∧
    (renderPass attr p sources items).batchResolved = false := by
  refine ⟨?_, ?_, ?_⟩ <;>
    simp [renderPass, engineRun, hb, teardownContainers_eq]

/-- On a resolving batch call the pass reports that no exception
escaped, and its enhancement count is the number of svg elements the
engine left on the page. -/
theorem renderPass_batch_resolved (attr : Option String) (p : PassParams)
    (sources : List String) (items : List PageItem) (hb : p.batchOk = true) :
    (renderPass attr p sources items).batchResolved = true ∧
    (renderPass attr p sources items).enhancements =
      countSvg (mapMounts (engineRenderNode (getCurrentTheme attr) p.valid)
        (mapMounts (resetMount sources) items)) := by
  refine ⟨?_, ?_⟩ <;>
    simp [renderPass, engineRun, hb, teardownContainers_eq, resetMounts]

/-- The second teardown loop keeps every mount good. -/
theorem resetMounts_preserves_allGood (sources : List String)
    (valid : String → Bool) (items : List PageItem)
    (hg : allGood sources valid items) :
    allGood sources valid (resetMounts sources items) := by
  intro m hm
  rw [← mem_mountsOf] at hm
  rw [resetMounts, mountsOf_mapMounts] at hm
  obtain ⟨m0, hm0, hEq⟩ := List.mem_map.1 hm
  obtain ⟨i, s, hbi, hsrc, hne, hval⟩ := hg m0 ((mem_mountsOf m0 items).1 hm0)
  refine ⟨i, s, ?_, hsrc, hne, hval⟩
  rw [← hEq, resetMount_blockIndex]
  exact hbi

/-- A page all of whose nodes are plain non-diagram content is left
untouched by any per-mount loop. -/
theorem mapMounts_no_mounts (g : Mount → Mount) (page : List PageItem)
    (h : ∀ it ∈ page, it = PageItem.other) : mapMounts g page = page := by
  induction page with
  | nil => rfl
  | cons it rest ih =>
      have h0 := h it (List.mem_cons_self _ _)
      subst h0
      rw [show mapMounts g (PageItem.other :: rest) =
          PageItem.other :: mapMounts g rest from rfl,
        ih fun x hx => h x (List.mem_cons_of_mem _ hx)]

/-- A page all of whose nodes are plain non-diagram content is left
untouched by the enhancement loop. -/
theorem enhanceAll_no_mounts (panOk : Nat → Bool) (page : List PageItem) :
    ∀ idx, (∀ it ∈ page, it = PageItem.other) →
      enhanceAll panOk idx page = page := by
  induction page with
  | nil => intro idx _; rfl
  | cons it rest ih =>
      intro idx h
      have h0 := h it (List.mem_cons_self _ _)
      subst h0
      rw [show enhanceAll panOk idx (PageItem.other :: rest) =
          PageItem.other :: enhanceAll panOk idx rest from rfl,
        ih idx fun x hx => h x (List.mem_cons_of_mem _ hx)]

/-- A page all of whose nodes are plain non-diagram content has no
mount divs. -/
theorem mountsOf_no_mounts (page : List PageItem)
    (h : ∀ it ∈ page, it = PageItem.other) : mountsOf page = [] := by
  induction page with
  | nil => rfl
  | cons it rest ih =>
      have h0 := h it (List.mem_cons_self _ _)
      subst h0
      rw [show mountsOf (PageItem.other :: rest) = mountsOf rest from rfl,
        ih fun x hx => h x (List.mem_cons_of_mem _ hx)]

/-- The conversion loop leaves a page without diagram-tagged blocks
untouched and records no source. -/
theorem convertItems_no_pres (page : List PageItem) :
    ∀ i, (∀ it ∈ page, it = PageItem.other) →
      convertItems page i = (page, []) := by
  induction page with
  | nil => intro i _; rfl
  | cons it rest ih =>
      intro i h
      have h0 := h it (List.mem_cons_self _ _)
      subst h0
      rw [show convertItems (PageItem.other :: rest) i =
          ((PageItem.other :: (convertItems rest i).1), (convertItems rest i).2) from rfl,
        ih i fun x hx => h x (List.mem_cons_of_mem _ hx)]

/-- The conversion loop over a split page: the second half is converted
with the forEach index advanced by the number of diagram-tagged blocks
of the first half, and the recorded sources are concatenated. -/
theorem convertItems_append (xs ys : List PageItem) :
    ∀ i, convertItems (xs ++ ys) i =
      ((convertItems xs i).1 ++ (convertItems ys (i + countPres xs)).1,
       (convertItems xs i).2 ++ (convertItems ys (i + countPres xs)).2) := by
  induction xs with
  | nil =>
      intro i
      simp [convertItems, countPres]
  | cons it rest ih =>
      intro i
      cases it with
      | pre b =>
          have hcount : countPres (PageItem.pre b :: rest) = countPres rest + 1 := by
            simp [countPres, isMermaidPre, List.countP_cons]
          have harith : i + (countPres rest + 1) = i + 1 + countPres rest := by omega
          cases hb : b.codeText with
          | some s =>
              rw [show convertItems ((PageItem.pre b :: rest) ++ ys) i =
                  (PageItem.mount ⟨some i, MountContent.rawText s, false⟩ ::
                     (convertItems (rest ++ ys) (i + 1)).1,
                   s :: (convertItems (rest ++ ys) (i + 1)).2) from by
                simp [convertItems, hb]]
              rw [show convertItems (PageItem.pre b :: rest) i =
                  (PageItem.mount ⟨some i, MountContent.rawText s, false⟩ ::
                     (convertItems rest (i + 1)).1,
                   s :: (convertItems rest (i + 1)).2) from by
                simp [convertItems, hb]]
              rw [ih (i + 1), hcount, harith]
              simp
          | none =>
              rw [show convertItems ((PageItem.pre b :: rest) ++ ys) i =
                  (PageItem.pre b :: (convertItems (rest ++ ys) (i + 1)).1,
                   (convertItems (rest ++ ys) (i + 1)).2) from by
                simp [convertItems, hb]]
              rw [show convertItems (PageItem.pre b :: rest) i =
                  (PageItem.pre b :: (convertItems rest (i + 1)).1,
                   (convertItems rest (i + 1)).2) from by
                simp [convertItems, hb]]
              rw [ih (i + 1), hcount, harith]
              simp
      | mount m =>
          have hcount : countPres (PageItem.mount m :: rest) = countPres rest := by
            simp [countPres, isMermaidPre, List.countP_cons]
          rw [show convertItems ((PageItem.mount m :: rest) ++ ys) i =
              (PageItem.mount m :: (convertItems (rest ++ ys) i).1,
               (convertItems (rest ++ ys) i).2) from rfl]
          rw [show convertItems (PageItem.mount m :: rest) i =
              (PageItem.mount m :: (convertItems rest i).1,
               (convertItems rest i).2) from rfl]
          rw [ih i, hcount]
          simp
      | other =>
          have hcount : countPres (PageItem.other :: rest) = countPres rest := by
            simp [countPres, isMermaidPre, List.countP_cons]
          rw [show convertItems ((PageItem.other :: rest) ++ ys) i =
              (PageItem.other :: (convertItems (rest ++ ys) i).1,
               (convertItems (rest ++ ys) i).2) from rfl]
          rw [show convertItems (PageItem.other :: rest) i =
              (PageItem.other :: (convertItems rest i).1,
               (convertItems rest i).2) from rfl]
          rw [ih i, hcount]
          simp

/-- The conversion loop records at most one source per diagram-tagged
block: blocks without a `code` child record none. -/
theorem convertItems_sources_le (xs : List PageItem) :
    ∀ i, (convertItems xs i).2.length ≤ countPres xs := by
  induction xs with
  | nil => intro i; simp [convertItems, countPres]
  | cons it rest ih =>
      intro i
      cases it with
      | pre b =>
          have hcount : countPres (PageItem.pre b :: rest) = countPres rest + 1 := by
            simp [countPres, isMermaidPre, List.countP_cons]
          cases hb : b.codeText with
          | some s =>
              rw [hcount,
                show (convertItems (PageItem.pre b :: rest) i).2 =
                  s :: (convertItems rest (i + 1)).2 from by simp [convertItems, hb]]
              simpa using ih (i + 1)
          | none =>
              rw [hcount,
                show (convertItems (PageItem.pre b :: rest) i).2 =
                  (convertItems rest (i + 1)).2 from by simp [convertItems, hb]]
              exact Nat.le_succ_of_le (ih (i + 1))
      | mount m =>
          have hcount : countPres (PageItem.mount m :: rest) = countPres rest := by
            simp [countPres, isMermaidPre, List.countP_cons]
          rw [hcount,
            show (convertItems (PageItem.mount m :: rest) i).2 =
              (convertItems rest i).2 from rfl]
          exact ih i
      | other =>
          have hcount : countPres (PageItem.other :: rest) = countPres rest := by
            simp [countPres, isMermaidPre, List.countP_cons]
          rw [hcount,
            show (convertItems (PageItem.other :: rest) i).2 =
              (convertItems rest i).2 from rfl]
          exact ih i

/-- C6: for every value of the document root theme attribute, absent
included, the derived palette is the light palette exactly when the
attribute equals "light" and the dark palette for every other value, and
every render pass configures the engine with exactly that palette,
startOnLoad disabled and the error-only logging level, with the
configuration call issued before the batch render call. -/
theorem c6_theme_mapping_and_engine_config (attr : Option String)
    (p : PassParams) (sources : List String) (items : List PageItem) :
    ((renderPass attr p sources items).config.theme = lightPalette ↔
      attr = some lightAttrVal) ∧
    ((renderPass attr p sources items).config.theme = darkPalette ↔
      attr ≠ some lightAttrVal) ∧
    (renderPass attr p sources items).config =
      ⟨false, getCurrentTheme attr, errorLogLevel⟩ ∧
    (renderPass attr p sources items).calls =
      [EngineCall.cfgCall (renderPass attr p sources items).config,
       EngineCall.runCall
         (countMounts (resetMounts sources (teardownContainers items)))] := by
  have hcfg := renderPass_config attr p sources items
  have hne : lightPalette ≠ darkPalette := by decide
  refine ⟨?_, ?_, hcfg, ?_⟩
  · rw [hcfg]
    unfold getCurrentTheme
    by_cases hA : attr = some lightAttrVal <;> simp [hA, hne] <;> decide
  · rw [hcfg]
    unfold getCurrentTheme
    by_cases hA : attr = some lightAttrVal <;> simp [hA, hne.symm] <;> decide
  · rw [hcfg, renderPass_calls]

/-- C1 counterexample: the claim that a new orchestrator invocation
never starts while a previous one is still awaiting its delay or its
batch call is false at the concrete event trace
`[load, themeChange]` - the theme change arrives while the load-time
invocation sits suspended at its delay, and a second invocation starts
anyway, leaving two in flight. -/
theorem c1_counterexample_overlapping_passes :
    serializedTrace [Ev.load, Ev.themeChange] = false ∧
    (runTrace [Ev.load, Ev.themeChange]).length = 2 := by
  constructor <;> rfl

/-- C1 amended: the MutationObserver handler starts a new orchestrator
invocation unconditionally on every theme change - there is no
serialization guard, so the number of in-flight invocations simply
grows by one whatever is already suspended, and overlapping render
passes are possible. -/
theorem c1_theme_change_always_starts_invocation (s : List Phase) :
    stepEv s Ev.themeChange = Phase.atDelay :: s ∧
    (stepEv s Ev.themeChange).length = s.length + 1 := by
  exact ⟨rfl, by simp [stepEv, startInvocation]⟩

/-- C3: the invariant that every mount's `data-block-index` resolves to
a valid entry of `window.mermaidSources` is broken by the conversion
loop on any page where a diagram-tagged block without a `code` child
precedes one with a `code` child: on `pageCodeless` conversion records
one source but gives the single mount index 1, which is out of range. -/
theorem c3_index_resolution_fails_on_codeless_page :
    (convert pageCodeless).2 = [srcGraph] ∧
    mountsOf (convert pageCodeless).1 =
      [⟨some 1, MountContent.rawText srcGraph, false⟩] ∧
    ∃ m ∈ mountsOf (convert pageCodeless).1,
      ¬ indexResolves (convert pageCodeless).2 m := by
  refine ⟨rfl, rfl, ⟨some 1, MountContent.rawText srcGraph, false⟩, ?_, ?_⟩
  · rw [show mountsOf (convert pageCodeless).1 =
        [⟨some 1, MountContent.rawText srcGraph, false⟩] from rfl]
    exact List.mem_cons_self _ _
  · rintro ⟨i, hi, hlt⟩
    have hi' : i = 1 := by
      have : some (1 : Nat) = some i := hi
      exact (Option.some_injective _ this).symm
    rw [show (convert pageCodeless).2 = [srcGraph] from rfl] at hlt
    rw [hi'] at hlt
    simp at hlt

/-- C10: the theme-change teardown skips a mount whose cached source is
the empty string entirely - the first loop never matches it (the
`.mermaid` descendant lookup inside a container always fails), the
second loop leaves its content and its `data-processed` attribute
untouched because the empty string is falsy, and hence, once the engine
has marked it processed, no later pass ever re-renders it. -/
theorem c10_empty_source_mount_never_reset (sources : List String)
    (m : Mount) (i : Nat) (θ : String) (valid : String → Bool)
    (hidx : m.blockIndex = some i) (hsrc : sources.get? i = some emptyStr) :
    resetMount sources m = m ∧
    resetMounts sources (teardownContainers [PageItem.mount m]) =
      [PageItem.mount m] ∧
    (m.processed = true → engineRenderNode θ valid m = m) := by
  have hsrc' := hsrc
  rw [List.get?_eq_getElem?] at hsrc'
  have hreset : resetMount sources m = m := by
    simp [resetMount, hidx, hsrc']
  refine ⟨hreset, ?_, ?_⟩
  · rw [teardownContainers_eq]
    simp [resetMounts, mapMounts, hreset]
  · intro hp
    simp [engineRenderNode, hp]

/-- C10 witness: a processed mount showing the engine error output whose
cached source is empty survives the second teardown loop unchanged. -/
theorem c10_witness :
    resetMount [emptyStr] ⟨some 0, MountContent.errorOutput, true⟩ =
      ⟨some 0, MountContent.errorOutput, true⟩ ∧
    engineRenderNode darkPalette (fun _ => false)
        ⟨some 0, MountContent.errorOutput, true⟩ =
      ⟨some 0, MountContent.errorOutput, true⟩ := by
  have h := c10_empty_source_mount_never_reset [emptyStr]
    ⟨some 0, MountContent.errorOutput, true⟩ 0 darkPalette
    (fun _ => false) rfl rfl
  exact ⟨h.1, h.2.2 rfl⟩

/-- C8 amended: on a page with zero diagram-tagged blocks the extractor
records an empty source list, the page itself is left completely
unchanged by conversion, by the initial render pass and by every loop in
it, and the pass produces zero viewport enhancements - but the render
orchestrator is still invoked (see the counterexample for the engine
calls it still issues). -/
theorem c8_empty_page_no_dom_change (attr : Option String) (p : PassParams)
    (page : List PageItem) (h : ∀ it ∈ page, it = PageItem.other) :
    (convert page).2 = [] ∧
    (convert page).1 = page ∧
    (loadHandler attr p page).pass.items = page ∧
    (loadHandler attr p page).pass.enhancements = 0 := by
  have hconv : convert page = (page, []) := convertItems_no_pres page 0 h
  have hm1 : ∀ g, mapMounts g page = page := fun g => mapMounts_no_mounts g page h
  have hitems : ∀ (a : Option String) (ss : List String),
      (renderPass a p ss page).items = page ∧
      (renderPass a p ss page).enhancements = 0 := by
    intro a ss
    cases hpb : p.batchOk
    · have hb := renderPass_batch_rejected a p ss page hpb
      refine ⟨?_, hb.2.1⟩
      rw [hb.1, resetMounts, hm1]
    · constructor
      · rw [renderPass_items_ok a p ss page hpb, hm1, hm1,
          enhanceAll_no_mounts p.panOk page 0 h]
      · have hb := renderPass_batch_resolved a p ss page hpb
        rw [hb.2, hm1, hm1]
        simp [countSvg, mountsOf_no_mounts page h]
  refine ⟨?_, ?_, ?_, ?_⟩
  · rw [show (convert page).2 = (page, ([] : List String)).2 from by rw [hconv]]
  · rw [show (convert page).1 = (page, ([] : List String)).1 from by rw [hconv]]
  · show (renderPass attr p (convert page).2 (convert page).1).items = page
    rw [hconv]
    exact (hitems attr []).1
  · show (renderPass attr p (convert page).2 (convert page).1).enhancements = 0
    rw [hconv]
    exact (hitems attr []).2

/-- C8 witness: the concrete diagram-free page is returned untouched
with an empty source list and no enhancements. -/
theorem c8_witness :
    (convert pageNoDiagrams).2 = [] ∧
    (loadHandler none trivParams pageNoDiagrams).pass.items =
      pageNoDiagrams := by
  have h := c8_empty_page_no_dom_change none trivParams pageNoDiagrams
    (by intro it hit; simp [pageNoDiagrams] at hit; exact hit)
  exact ⟨h.1, h.2.2.1⟩

/-- C8 counterexample: the part of the claim saying that on a
diagram-free page "no further component performs any work" is false -
the load handler still invokes the render orchestrator, which still
issues the engine configuration call and a batch render call over zero
nodes. -/
theorem c8_counterexample_orchestrator_still_invoked :
    (loadHandler none trivParams pageNoDiagrams).sources = [] ∧
    (loadHandler none trivParams pageNoDiagrams).pass.calls =
      [EngineCall.cfgCall ⟨false, darkPalette, errorLogLevel⟩,
       EngineCall.runCall 0] ∧
    (loadHandler none trivParams pageNoDiagrams).pass.calls ≠ [] := by
  refine ⟨rfl, rfl, ?_⟩
  intro hcontra
  rw [show (loadHandler none trivParams pageNoDiagrams).pass.calls =
      [EngineCall.cfgCall ⟨false, darkPalette, errorLogLevel⟩,
       EngineCall.runCall 0] from rfl] at hcontra
  exact List.noConfusion hcontra

/-- C9: a diagram-tagged block without a `code` child records no source
and stays in the DOM unchanged, while a later converted block still
receives a `data-block-index` equal to its position among ALL
diagram-tagged blocks - here `countPres pfx + 1` - even though its
source text is stored at the strictly smaller position
`(convertItems pfx 0).2.length`, so indices and stored sources shift
out of alignment. -/
theorem c9_codeless_block_shifts_indices (pfx rest : List PageItem)
    (b0 : Block) (s : String) (hb0 : b0.codeText = none) :
    (convert (pfx ++ PageItem.pre b0 :: PageItem.pre ⟨some s⟩ :: rest)).1 =
      (convertItems pfx 0).1 ++ PageItem.pre b0 ::
        PageItem.mount ⟨some (countPres pfx + 1), MountContent.rawText s, false⟩ ::
        (convertItems rest (countPres pfx + 2)).1 ∧
    (convert (pfx ++ PageItem.pre b0 :: PageItem.pre ⟨some s⟩ :: rest)).2 =
      (convertItems pfx 0).2 ++ s :: (convertItems rest (countPres pfx + 2)).2 ∧
    (convert (pfx ++ PageItem.pre b0 :: PageItem.pre ⟨some s⟩ :: rest)).2.get?
        ((convertItems pfx 0).2.length) = some s ∧
    (convertItems pfx 0).2.length < countPres pfx + 1 := by
  have happ := convertItems_append pfx
    (PageItem.pre b0 :: PageItem.pre ⟨some s⟩ :: rest) 0
  have htail : convertItems
      (PageItem.pre b0 :: PageItem.pre ⟨some s⟩ :: rest) (0 + countPres pfx) =
      (PageItem.pre b0 ::
         PageItem.mount ⟨some (countPres pfx + 1), MountContent.rawText s, false⟩ ::
         (convertItems rest (countPres pfx + 2)).1,
       s :: (convertItems rest (countPres pfx + 2)).2) := by
    simp [convertItems, hb0]
  have hfst : (convert (pfx ++ PageItem.pre b0 :: PageItem.pre ⟨some s⟩ :: rest)).1 =
      (convertItems pfx 0).1 ++ PageItem.pre b0 ::
        PageItem.mount ⟨some (countPres pfx + 1), MountContent.rawText s, false⟩ ::
        (convertItems rest (countPres pfx + 2)).1 := by
    rw [convert, happ, htail]
  have hsnd : (convert (pfx ++ PageItem.pre b0 :: PageItem.pre ⟨some s⟩ :: rest)).2 =
      (convertItems pfx 0).2 ++ s :: (convertItems rest (countPres pfx + 2)).2 := by
    rw [convert, happ, htail]
  refine ⟨hfst, hsnd, ?_, ?_⟩
  · rw [hsnd, List.get?_append_right (le_refl _)]
    simp
  · have := convertItems_sources_le pfx 0
    omega

/-- C9 witness: on the concrete codeless-then-valid page the codeless
block survives conversion unchanged, the single mount carries block
index 1, and its source is stored at position 0 < 1. -/
theorem c9_witness :
    (convert pageCodeless).1 =
      [PageItem.pre ⟨none⟩,
       PageItem.mount ⟨some 1, MountContent.rawText srcGraph, false⟩] ∧
    (convert pageCodeless).2.get? 0 = some srcGraph := by
  have h := c9_codeless_block_shifts_indices [] [] ⟨none⟩ srcGraph rfl
  exact ⟨by simpa using h.1, by simpa using h.2.2.1⟩

/-- C2: over a batch of aligned mounts containing exactly one malformed
source among N valid ones, a render pass whose batch call keeps the
engine contract produces exactly N viewport enhancements (one per
rendered svg), the batch call resolves (no exception escapes it), and
every mount whose source the engine rejects is left showing the engine
inline error output. -/
theorem c2_fault_isolation (attr : Option String) (p : PassParams)
    (sources : List String) (items : List PageItem) (N : Nat)
    (hb : p.batchOk = true) (ha : allAligned sources items)
    (hN : (mountsOf items).countP
      (fun m => mountSrcValid sources p.valid m) = N)
    (hOne : (mountsOf items).countP
      (fun m => !(mountSrcValid sources p.valid m)) = 1) :
    (renderPass attr p sources items).enhancements = N ∧
    (renderPass attr p sources items).batchResolved = true ∧
    ∀ m, PageItem.mount m ∈ (renderPass attr p sources items).items →
      ∀ s, srcOf sources m = some s → p.valid s = false →
        m.content = MountContent.errorOutput := by
  have hres := renderPass_batch_resolved attr p sources items hb
  refine ⟨?_, hres.1, ?_⟩
  · rw [hres.2, countSvg, mountsOf_mapMounts, mountsOf_mapMounts,
      List.countP_map, List.countP_map]
    rw [← hN]
    apply List.countP_congr
    intro m hm
    obtain ⟨i, s, hbi, hsrc, hne, hrst⟩ :=
      resetMount_aligned sources m (ha m ((mem_mountsOf m items).1 hm))
    have hsv : srcOf sources m = some s := by
      rw [srcOf, hbi]
      exact hsrc
    simp only [Function.comp_apply, hrst, mountSrcValid, hsv]
    cases hv : p.valid s <;> simp [engineRenderNode, hv, hasSvg]
  · intro m hm s hs hv
    rw [renderPass_items_ok attr p sources items hb] at hm
    obtain ⟨m1, k, hm1, hEq⟩ := enhanceAll_mem p.panOk _ 0 m hm
    rw [← mem_mountsOf, mountsOf_mapMounts, mountsOf_mapMounts] at hm1
    simp only [List.map_map, List.mem_map, Function.comp] at hm1
    obtain ⟨m0, hm0, hEq0⟩ := hm1
    obtain ⟨i, s0, hbi, hsrc, hne, hrst⟩ :=
      resetMount_aligned sources m0 (ha m0 ((mem_mountsOf m0 items).1 hm0))
    have hbix : m.blockIndex = some i := by
      rw [hEq, enhanceMount_blockIndex, ← hEq0, hrst, engineRenderNode_blockIndex]
    have hsrc' := hsrc
    rw [List.get?_eq_getElem?] at hsrc'
    have hs0 : s = s0 := by
      rw [srcOf, hbix] at hs
      simp [hsrc'] at hs
      exact hs.symm
    have hm1err : m1 = ⟨some i, MountContent.errorOutput, true⟩ := by
      rw [← hEq0, hrst]
      simp [engineRenderNode, hs0 ▸ hv]
    rw [hEq, hm1err]
    rfl

/-- C2 witness: on the concrete three-diagram batch with the malformed
source in the middle, the pass produces exactly 2 enhancements, the
batch call resolves, and the malformed mount shows the inline error
output. -/
theorem c2_witness :
    (renderPass none oneBadParams oneBadSources oneBadItems).enhancements = 2 ∧
    (renderPass none oneBadParams oneBadSources oneBadItems).batchResolved =
      true := by
  have ha : allAligned oneBadSources oneBadItems := by
    intro m hm
    simp [oneBadItems] at hm
    rcases hm with hm | hm | hm <;> subst hm
    · exact ⟨0, srcA, rfl, rfl, by decide⟩
    · exact ⟨1, srcBad, rfl, rfl, by decide⟩
    · exact ⟨2, srcGraph, rfl, rfl, by decide⟩
  have h := c2_fault_isolation none oneBadParams oneBadSources oneBadItems 2
    rfl ha rfl rfl
  exact ⟨h.1, h.2.1⟩

/-- C4: when the batch render call itself rejects, the exception is
caught inside the pass - the page is left exactly as the teardown left
it, zero viewport enhancements are produced, nothing propagates - and a
later theme change still triggers a fresh, independent pass over the
full current mount set, which renders and wraps every mount. -/
theorem c4_batch_rejection_recovered (attr1 attr2 : Option String)
    (p1 p2 : PassParams) (sources : List String) (items : List PageItem)
    (hb1 : p1.batchOk = false) (hb2 : p2.batchOk = true)
    (hg : allGood sources p2.valid items) :
    (renderPass attr1 p1 sources items).enhancements = 0 ∧
    (renderPass attr1 p1 sources items).batchResolved = false ∧
    (renderPass attr1 p1 sources items).items = resetMounts sources items ∧
    ∀ k, (mountsOf (renderPass attr2 p2 sources
        (renderPass attr1 p1 sources items).items).items).get? k =
      ((mountsOf (renderPass attr1 p1 sources items).items).get? k).map
        (fun m => ⟨m.blockIndex,
          MountContent.wrapped 1 (getCurrentTheme attr2) (p2.panOk k), true⟩) := by
  have hrej := renderPass_batch_rejected attr1 p1 sources items hb1
  refine ⟨hrej.2.1, hrej.2.2, hrej.1, ?_⟩
  intro k
  have hg2 : allGood sources p2.valid (renderPass attr1 p1 sources items).items := by
    rw [hrej.1]
    exact resetMounts_preserves_allGood sources p2.valid items hg
  exact renderPass_allGood_get? attr2 p2 sources _ hb2 hg2 k

/-- C4 witness: a rejected batch call on the one-diagram page yields
zero enhancements, and the follow-up pass after a theme change wraps
the diagram in one viewport container with the light palette. -/
theorem c4_witness :
    (renderPass none failParams [srcA] oneMountItems).enhancements = 0 ∧
    (mountsOf (renderPass (some lightAttrVal) trivParams [srcA]
        (renderPass none failParams [srcA] oneMountItems).items).items).get? 0 =
      some ⟨some 0, MountContent.wrapped 1 lightPalette true, true⟩ := by
  have hg : allGood [srcA] trivParams.valid oneMountItems := by
    intro m hm
    simp [oneMountItems] at hm
    subst hm
    exact ⟨0, srcA, rfl, rfl, by decide, rfl⟩
  have h := c4_batch_rejection_recovered none (some lightAttrVal) failParams
    trivParams [srcA] oneMountItems rfl rfl hg
  refine ⟨h.1, ?_⟩
  rw [h.2.2.2 0]
  rfl

/-- C5: starting from a converted page whose mounts are all good, any
sequence of completed theme-toggle passes followed by a final completed
pass leaves every mount wrapped in exactly one viewport container
(nest = 1: never zero, never more than one) holding exactly one rendered
graphic in the final palette; and the teardown step of any further
toggle first restores every mount content to its cached source text,
unprocessed, with the prior container gone. -/
theorem c5_theme_toggles_single_container (p : PassParams)
    (sources : List String) (items : List PageItem)
    (themes : List (Option String)) (final : Option String)
    (hb : p.batchOk = true) (hg : allGood sources p.valid items) :
    (∀ m, PageItem.mount m ∈
        (renderPass final p sources
          (themes.foldl (fun st a => (renderPass a p sources st).items)
            items)).items →
      ∃ b, m.content = MountContent.wrapped 1 (getCurrentTheme final) b ∧
        m.processed = true) ∧
    (∀ m, PageItem.mount m ∈
        resetMounts sources (teardownContainers
          (themes.foldl (fun st a => (renderPass a p sources st).items)
            items)) →
      ∃ s, srcOf sources m = some s ∧
        m.content = MountContent.rawText s ∧ m.processed = false) := by
  have hfold : ∀ (ts : List (Option String)) (st : List PageItem),
      allGood sources p.valid st →
      allGood sources p.valid
        (ts.foldl (fun st a => (renderPass a p sources st).items) st) := by
    intro ts
    induction ts with
    | nil => intro st h; exact h
    | cons a ts ih =>
        intro st h
        exact ih _ (renderPass_preserves_allGood a p sources st hb h)
  have hmid := hfold themes items hg
  constructor
  · intro m hm
    rw [← mem_mountsOf] at hm
    obtain ⟨k, hk⟩ := List.mem_iff_get?.1 hm
    rw [renderPass_allGood_get? final p sources _ hb hmid k] at hk
    cases hk0 : (mountsOf
        (themes.foldl (fun st a => (renderPass a p sources st).items)
          items)).get? k with
    | none =>
        rw [hk0] at hk
        exact absurd hk (by simp)
    | some m0 =>
        rw [hk0] at hk
        simp only [Option.map_some'] at hk
        injection hk with hk
        exact ⟨p.panOk k, by rw [← hk], by rw [← hk]⟩
  · intro m hm
    rw [teardownContainers_eq, resetMounts, ← mem_mountsOf,
      mountsOf_mapMounts] at hm
    obtain ⟨m0, hm0, hEq⟩ := List.mem_map.1 hm
    have hg0 := hmid m0 ((mem_mountsOf m0 _).1 hm0)
    obtain ⟨i, s, hbi, hsrc, hne, hrst⟩ :=
      resetMount_aligned sources m0 ⟨_, _, hg0.choose_spec.choose_spec.1,
        hg0.choose_spec.choose_spec.2.1, hg0.choose_spec.choose_spec.2.2.1⟩
    refine ⟨s, ?_, ?_, ?_⟩
    · rw [← hEq, hrst]
      show (some i).bind sources.get? = some s
      rw [Option.some_bind]
      exact hsrc
    · rw [← hEq, hrst]
    · rw [← hEq, hrst]

/-- C5 witness: one diagram, one light-theme toggle pass, then a final
dark pass - the mount ends wrapped in exactly one container in the dark
palette. -/
theorem c5_witness :
    ∃ b, (⟨some 0, MountContent.wrapped 1 darkPalette true, true⟩ :
        Mount).content = MountContent.wrapped 1 (getCurrentTheme none) b ∧
      (⟨some 0, MountContent.wrapped 1 darkPalette true, true⟩ :
        Mount).processed = true := by
  have hg : allGood [srcA] trivParams.valid oneMountItems := by
    intro m hm
    simp [oneMountItems] at hm
    subst hm
    exact ⟨0, srcA, rfl, rfl, by decide, rfl⟩
  have h := c5_theme_toggles_single_container trivParams [srcA] oneMountItems
    [some lightAttrVal] none rfl hg
  refine h.1 ⟨some 0, MountContent.wrapped 1 darkPalette true, true⟩ ?_
  rw [show (renderPass none trivParams [srcA]
      (([some lightAttrVal] : List (Option String)).foldl
        (fun st a => (renderPass a trivParams [srcA] st).items)
        oneMountItems)).items =
    [PageItem.mount ⟨some 0, MountContent.wrapped 1 darkPalette true, true⟩]
    from rfl]
  exact List.mem_cons_self _ _

/-- C7: under a completed pass over good mounts, if the pan/zoom
initialisation throws exactly for the j-th rendered graphic, that
graphic still ends up inside its viewport container but static
(pan/zoom inactive), and every other graphic of the same pass receives
its full enhancement with pan/zoom active. -/
theorem c7_panzoom_failure_isolated (attr : Option String) (p : PassParams)
    (sources : List String) (items : List PageItem) (j : Nat)
    (hb : p.batchOk = true) (hg : allGood sources p.valid items)
    (hj : p.panOk j = false) (hothers : ∀ k, k ≠ j → p.panOk k = true) :
    ∀ k m, (mountsOf (renderPass attr p sources items).items).get? k = some m →
      m.content = MountContent.wrapped 1 (getCurrentTheme attr) (p.panOk k) ∧
      m.processed = true ∧
      (k = j → m.content = MountContent.wrapped 1 (getCurrentTheme attr) false) ∧
      (k ≠ j → m.content = MountContent.wrapped 1 (getCurrentTheme attr) true) := by
  intro k m hk
  rw [renderPass_allGood_get? attr p sources items hb hg k] at hk
  cases hk0 : (mountsOf items).get? k with
  | none =>
      rw [hk0] at hk
      exact absurd hk (by simp)
  | some m0 =>
      rw [hk0] at hk
      simp only [Option.map_some'] at hk
      injection hk with hk
      refine ⟨by rw [← hk], by rw [← hk], ?_, ?_⟩
      · intro hkj
        rw [← hk, hkj, hj]
      · intro hkj
        rw [← hk, hothers k hkj]

/-- C7 witness: two diagrams, pan/zoom initialisation throwing for the
0-th graphic - it stays wrapped but static while the 1-st graphic is
wrapped with pan/zoom active. -/
theorem c7_witness :
    (⟨some 0, MountContent.wrapped 1 darkPalette false, true⟩ :
      Mount).content = MountContent.wrapped 1 (getCurrentTheme none) false ∧
    (⟨some 1, MountContent.wrapped 1 darkPalette true, true⟩ :
      Mount).content = MountContent.wrapped 1 (getCurrentTheme none) true := by
  have hg : allGood twoMountSources panFailParams.valid twoMountItems := by
    intro m hm
    simp [twoMountItems] at hm
    rcases hm with hm | hm <;> subst hm
    · exact ⟨0, srcA, rfl, rfl, by decide, rfl⟩
    · exact ⟨1, srcGraph, rfl, rfl, by decide, rfl⟩
  have hothers : ∀ k, k ≠ 0 → panFailParams.panOk k = true := by
    intro k hk
    cases k with
    | zero => exact absurd rfl hk
    | succ n => rfl
  have h := c7_panzoom_failure_isolated none panFailParams twoMountSources
    twoMountItems 0 rfl hg rfl hothers
  have h0 := h 0 ⟨some 0, MountContent.wrapped 1 darkPalette false, true⟩ rfl
  have h1 := h 1 ⟨some 1, MountContent.wrapped 1 darkPalette true, true⟩ rfl
  exact ⟨h0.2.2.1 rfl, h1.2.2.2 (by decide)⟩

end MermaidClient
